import Mathlib

/-!
Shallow embedding of the deploy pipeline of Yelp/graphql-guidelines.

The repository's only procedural code is a linear shell deploy script that
exists in two copies:

* `src/deploy_docs.sh` — sets repo-local git identity and runs
  `git push -f https://github.com/Yelp/graphql-guidelines.git main:docs`;
* the copy embedded in `src/Makefile` — sets `--global` git identity and runs
  `git push -f git@github.com:Yelp/graphql-guidelines.git master:docs`.

Both scripts begin with `set -e`, so every command either succeeds or aborts
the whole run with a non-zero exit status.  We model a run as a function from
an environment oracle (the outcome of the external `vuepress build`, network
availability for the push, the branch name `git init` creates, and the commit
timestamp) and an initial state (build directory, remote `docs` branch
history, user-level git configuration) to an exit code, a final state and the
trace of shell commands that actually executed.
-/

namespace DeployDocs

/-- A file tree: association list from file name to file content. -/
abbrev Tree := List (String × String)

/-- A version-control snapshot: the committed tree together with the author
identity, the commit message and the commit timestamp (git stores the time in
the commit object, so two commits made at different times are distinct even
when their trees agree). -/
structure Commit where
  tree : Tree
  authorName : String
  authorEmail : String
  message : String
  time : Nat
deriving DecidableEq, Repr

/-- A git identity configuration: `user.name` / `user.email`, each possibly
unset. -/
structure GitConfig where
  userName : Option String
  userEmail : Option String
deriving DecidableEq, Repr

/-- The state a run can observe or mutate: the local `build` directory
(`none` when absent), the history of the remote `docs` branch (head first),
and the user-level (`--global`) git configuration. -/
structure State where
  build : Option Tree
  remoteDocs : List Commit
  globalConfig : GitConfig
deriving DecidableEq, Repr

/-- The environment oracle for one run: what `vuepress build` would produce
(`none` = build failure), whether the network/credentials allow a push, the
branch name `git init` creates (git's `init.defaultBranch`), and the wall
clock time recorded in the commit. -/
structure Env where
  buildResult : Option Tree
  pushOk : Bool
  initBranch : String
  time : Nat
deriving DecidableEq, Repr

/-- The shell commands of the deploy scripts, used as trace labels.  The
`Bool` on `gitConfig` records whether the `--global` flag was passed;
`gitPush` records the remote URL and the refspec. -/
inductive Step where
  | rmBuild
  | vuepressBuild
  | cdBuild
  | touchNojekyll
  | gitInit
  | gitAdd
  | gitConfig (isGlobal : Bool) (key : String) (value : String)
  | gitCommit
  | gitPush (url : String) (refspec : String)
  | cdBack
deriving DecidableEq, Repr

/-- The state of the throwaway repository `git init` creates inside the build
directory: current branch name, repo-local configuration, the staged tree and
the commit list (head first; `git init` starts with no commits). -/
structure LocalRepo where
  branch : String
  config : GitConfig
  staged : Tree
  commits : List Commit
deriving DecidableEq, Repr

/-- `touch name` inside a directory: creates an empty file when absent,
leaves an existing file's content alone. -/
def touchFile (t : Tree) (name : String) : Tree :=
  if t.any (fun f => f.1 == name) then t else t ++ [(name, "")]

/-- The identity `git commit` uses: repo-local configuration wins, the global
configuration is the fallback; `none` when either component is unset. -/
def resolveIdent (localCfg globalCfg : GitConfig) : Option (String × String) :=
  match localCfg.userName.orElse (fun _ => globalCfg.userName),
        localCfg.userEmail.orElse (fun _ => globalCfg.userEmail) with
  | some n, some e => some (n, e)
  | _, _ => none

/-- One run of `src/deploy_docs.sh`.  Commands are modelled line by line:
`set -e` appears as the early return of each failing command; `rm -rf build`;
`vuepress build docs --dest build`; `cd build`; `touch .nojekyll`;
`git init`; `git add -A`; `git config user.email` / `user.name` (repo-local);
`git commit -m 'deploy'`; `git push -f
https://github.com/Yelp/graphql-guidelines.git main:docs` (the refspec
requires the local branch to be named `main`, and `-f` replaces the remote
branch unconditionally); `cd -`.  Returns the exit code, the final state and
the trace of commands that executed. -/
def deploy_docs (env : Env) (s : State) : Nat × State × List Step :=
  -- rm -rf build
  let s1 : State := { s with build := none }
  -- node_modules/.bin/vuepress build docs --dest build
  match env.buildResult with
  | none => (1, s1, [Step.rmBuild, Step.vuepressBuild])
  | some t =>
    -- cd build; touch .nojekyll
    let t2 : Tree := touchFile t ".nojekyll"
    let s2 : State := { s1 with build := some t2 }
    -- git init
    let repo0 : LocalRepo :=
      { branch := env.initBranch, config := { userName := none, userEmail := none },
        staged := [], commits := [] }
    -- git add -A
    let repo1 : LocalRepo := { repo0 with staged := t2 }
    -- git config user.email "darwin@yelp.com"  (repo-local)
    let repo2 : LocalRepo :=
      { repo1 with config := { repo1.config with userEmail := some "darwin@yelp.com" } }
    -- git config user.name "Darwin S."  (repo-local)
    let repo3 : LocalRepo :=
      { repo2 with config := { repo2.config with userName := some "Darwin S." } }
    let trPre : List Step :=
      [Step.rmBuild, Step.vuepressBuild, Step.cdBuild, Step.touchNojekyll,
       Step.gitInit, Step.gitAdd,
       Step.gitConfig false "user.email" "darwin@yelp.com",
       Step.gitConfig false "user.name" "Darwin S."]
    -- git commit -m 'deploy': fails when the identity is unset or nothing is staged
    match resolveIdent repo3.config s2.globalConfig with
    | none => (1, s2, trPre ++ [Step.gitCommit])
    | some (n, e) =>
      if repo3.staged = [] then (1, s2, trPre ++ [Step.gitCommit])
      else
        let c : Commit :=
          { tree := repo3.staged, authorName := n, authorEmail := e,
            message := "deploy", time := env.time }
        let repo4 : LocalRepo := { repo3 with commits := [c] }
        -- git push -f https://github.com/Yelp/graphql-guidelines.git main:docs
        if env.pushOk = true ∧ repo4.branch = "main" then
          (0, { s2 with remoteDocs := repo4.commits },
           trPre ++ [Step.gitCommit,
             Step.gitPush "https://github.com/Yelp/graphql-guidelines.git" "main:docs",
             Step.cdBack])
        else
          (1, s2, trPre ++ [Step.gitCommit,
            Step.gitPush "https://github.com/Yelp/graphql-guidelines.git" "main:docs"])

/-- One run of the deploy script embedded in `src/Makefile`.  Identical to
`deploy_docs` except: `git config --global user.email` / `user.name` mutate
the user-level configuration (the repo-local configuration stays unset, so
the commit identity is resolved through the global fallback), and the push is
`git push -f git@github.com:Yelp/graphql-guidelines.git master:docs`, whose
refspec requires the local branch to be named `master`. -/
def makefile_deploy (env : Env) (s : State) : Nat × State × List Step :=
  -- rm -rf build
  let s1 : State := { s with build := none }
  -- node_modules/.bin/vuepress build docs --dest build
  match env.buildResult with
  | none => (1, s1, [Step.rmBuild, Step.vuepressBuild])
  | some t =>
    -- cd build; touch .nojekyll
    let t2 : Tree := touchFile t ".nojekyll"
    let s2 : State := { s1 with build := some t2 }
    -- git init
    let repo0 : LocalRepo :=
      { branch := env.initBranch, config := { userName := none, userEmail := none },
        staged := [], commits := [] }
    -- git add -A
    let repo1 : LocalRepo := { repo0 with staged := t2 }
    -- git config --global user.email "darwin@yelp.com"
    let s3 : State :=
      { s2 with globalConfig := { s2.globalConfig with userEmail := some "darwin@yelp.com" } }
    -- git config --global user.name "Darwin S."
    let s4 : State :=
      { s3 with globalConfig := { s3.globalConfig with userName := some "Darwin S." } }
    let trPre : List Step :=
      [Step.rmBuild, Step.vuepressBuild, Step.cdBuild, Step.touchNojekyll,
       Step.gitInit, Step.gitAdd,
       Step.gitConfig true "user.email" "darwin@yelp.com",
       Step.gitConfig true "user.name" "Darwin S."]
    -- git commit -m 'deploy'
    match resolveIdent repo1.config s4.globalConfig with
    | none => (1, s4, trPre ++ [Step.gitCommit])
    | some (n, e) =>
      if repo1.staged = [] then (1, s4, trPre ++ [Step.gitCommit])
      else
        let c : Commit :=
          { tree := repo1.staged, authorName := n, authorEmail := e,
            message := "deploy", time := env.time }
        let repo4 : LocalRepo := { repo1 with commits := [c] }
        -- git push -f git@github.com:Yelp/graphql-guidelines.git master:docs
        if env.pushOk = true ∧ repo4.branch = "master" then
          (0, { s4 with remoteDocs := repo4.commits },
           trPre ++ [Step.gitCommit,
             Step.gitPush "git@github.com:Yelp/graphql-guidelines.git" "master:docs",
             Step.cdBack])
        else
          (1, s4, trPre ++ [Step.gitCommit,
            Step.gitPush "git@github.com:Yelp/graphql-guidelines.git" "master:docs"])

/-- The full command trace of a successful `src/deploy_docs.sh` run. -/
def successTrace : List Step :=
  [Step.rmBuild, Step.vuepressBuild, Step.cdBuild, Step.touchNojekyll,
   Step.gitInit, Step.gitAdd,
   Step.gitConfig false "user.email" "darwin@yelp.com",
   Step.gitConfig false "user.name" "Darwin S.",
   Step.gitCommit,
   Step.gitPush "https://github.com/Yelp/graphql-guidelines.git" "main:docs",
   Step.cdBack]

/-- The snapshot `deploy_docs` publishes when `vuepress build` produced `t`
at time `time`. -/
def snapshotOf (t : Tree) (time : Nat) : Commit :=
  { tree := touchFile t ".nojekyll", authorName := "Darwin S.",
    authorEmail := "darwin@yelp.com", message := "deploy", time := time }

/-- The identity both scripts configure. -/
def darwinConfig : GitConfig :=
  { userName := some "Darwin S.", userEmail := some "darwin@yelp.com" }

/-- The full command trace of a successful run of the `src/Makefile` copy. -/
def mkSuccessTrace : List Step :=
  [Step.rmBuild, Step.vuepressBuild, Step.cdBuild, Step.touchNojekyll,
   Step.gitInit, Step.gitAdd,
   Step.gitConfig true "user.email" "darwin@yelp.com",
   Step.gitConfig true "user.name" "Darwin S.",
   Step.gitCommit,
   Step.gitPush "git@github.com:Yelp/graphql-guidelines.git" "master:docs",
   Step.cdBack]

theorem touchFile_ne_nil (t : Tree) (name : String) : touchFile t name ≠ [] := by
  unfold touchFile
  split
  · rename_i h
    intro hnil
    subst hnil
    simp at h
  · simp

theorem mem_touchFile (t : Tree) (name : String) (f : String × String)
    (h : f ∈ touchFile t name) : f ∈ t ∨ f = (name, "") := by
  unfold touchFile at h
  split at h
  · exact Or.inl h
  · rcases List.mem_append.1 h with h1 | h1
    · exact Or.inl h1
    · exact Or.inr (List.mem_singleton.1 h1)

theorem touchFile_has (t : Tree) (name : String) :
    ∃ v, (name, v) ∈ touchFile t name := by
  unfold touchFile
  split
  · rename_i h
    rcases List.any_eq_true.1 h with ⟨f, hf, hname⟩
    refine ⟨f.2, ?_⟩
    have h1 : (name, f.2) = f := by
      cases f
      simp_all
    rw [h1]
    exact hf
  · exact ⟨"", by simp⟩

/-- Complete case analysis of a `deploy_docs` run: the build fails and the
run stops after two commands, or the push is impossible and the run stops at
the push, or everything succeeds. -/
theorem deploy_docs_spec (env : Env) (s : State) :
    (env.buildResult = none ∧
      deploy_docs env s =
        (1, { s with build := none }, [Step.rmBuild, Step.vuepressBuild])) ∨
    (∃ t, env.buildResult = some t ∧ ¬(env.pushOk = true ∧ env.initBranch = "main") ∧
      deploy_docs env s =
        (1, { s with build := some (touchFile t ".nojekyll") }, successTrace.dropLast)) ∨
    (∃ t, env.buildResult = some t ∧ env.pushOk = true ∧ env.initBranch = "main" ∧
      deploy_docs env s =
        (0, { s with
              build := some (touchFile t ".nojekyll"),
              remoteDocs := [snapshotOf t env.time] }, successTrace)) := by
  rcases hb : env.buildResult with _ | t
  · left
    refine ⟨rfl, ?_⟩
    simp only [deploy_docs, hb]
  · right
    by_cases hp : env.pushOk = true ∧ env.initBranch = "main"
    · right
      refine ⟨t, rfl, hp.1, hp.2, ?_⟩
      simp only [deploy_docs, hb, resolveIdent, Option.orElse]
      rw [if_neg (touchFile_ne_nil t ".nojekyll"), if_pos hp]
      rfl
    · left
      refine ⟨t, rfl, hp, ?_⟩
      simp only [deploy_docs, hb, resolveIdent, Option.orElse]
      rw [if_neg (touchFile_ne_nil t ".nojekyll"), if_neg hp]
      rfl

/-- Complete case analysis of a run of the `src/Makefile` copy. -/
theorem makefile_deploy_spec (env : Env) (s : State) :
    (env.buildResult = none ∧
      makefile_deploy env s =
        (1, { s with build := none }, [Step.rmBuild, Step.vuepressBuild])) ∨
    (∃ t, env.buildResult = some t ∧ ¬(env.pushOk = true ∧ env.initBranch = "master") ∧
      makefile_deploy env s =
        (1, { s with
              build := some (touchFile t ".nojekyll"),
              globalConfig := darwinConfig }, mkSuccessTrace.dropLast)) ∨
    (∃ t, env.buildResult = some t ∧ env.pushOk = true ∧ env.initBranch = "master" ∧
      makefile_deploy env s =
        (0, { s with
              build := some (touchFile t ".nojekyll"),
              remoteDocs := [snapshotOf t env.time],
              globalConfig := darwinConfig }, mkSuccessTrace)) := by
  rcases hb : env.buildResult with _ | t
  · left
    refine ⟨rfl, ?_⟩
    simp only [makefile_deploy, hb]
  · right
    by_cases hp : env.pushOk = true ∧ env.initBranch = "master"
    · right
      refine ⟨t, rfl, hp.1, hp.2, ?_⟩
      simp only [makefile_deploy, hb, resolveIdent, Option.orElse]
      rw [if_neg (touchFile_ne_nil t ".nojekyll"), if_pos hp]
      rfl
    · left
      refine ⟨t, rfl, hp, ?_⟩
      simp only [makefile_deploy, hb, resolveIdent, Option.orElse]
      rw [if_neg (touchFile_ne_nil t ".nojekyll"), if_neg hp]
      rfl

/-- A successful `deploy_docs` run determines everything: the build
succeeded, and the final state and trace have the canonical shape. -/
theorem deploy_docs_success_shape (env : Env) (s : State)
    (h0 : (deploy_docs env s).1 = 0) :
    ∃ t, env.buildResult = some t ∧
      deploy_docs env s =
        (0, { s with
              build := some (touchFile t ".nojekyll"),
              remoteDocs := [snapshotOf t env.time] }, successTrace) := by
  rcases deploy_docs_spec env s with ⟨hb, he⟩ | ⟨t, hb, hp, he⟩ | ⟨t, hb, hp1, hp2, he⟩
  · rw [he] at h0
    simp at h0
  · rw [he] at h0
    simp at h0
  · exact ⟨t, hb, he⟩

/-- With the push conditions satisfied, a `makefile_deploy` run succeeds with
the canonical final state and trace. -/
theorem makefile_deploy_success (env : Env) (s : State) (t : Tree)
    (hb : env.buildResult = some t) (hok : env.pushOk = true)
    (hbr : env.initBranch = "master") :
    makefile_deploy env s =
      (0, { s with
            build := some (touchFile t ".nojekyll"),
            remoteDocs := [snapshotOf t env.time],
            globalConfig := darwinConfig }, mkSuccessTrace) := by
  rcases makefile_deploy_spec env s with ⟨hb2, he⟩ | ⟨t2, hb2, hp, he⟩ | ⟨t2, hb2, hp1, hp2, he⟩
  · rw [hb] at hb2
    exact absurd hb2 (by simp)
  · exact absurd ⟨hok, hbr⟩ hp
  · have ht2 : t2 = t := by
      rw [hb] at hb2
      exact (Option.some.inj hb2).symm
    rw [ht2] at he
    exact he

/-- The command kind of a step, forgetting its arguments. -/
def stepKind : Step → Nat
  | .rmBuild => 0
  | .vuepressBuild => 1
  | .cdBuild => 2
  | .touchNojekyll => 3
  | .gitInit => 4
  | .gitAdd => 5
  | .gitConfig _ _ _ => 6
  | .gitCommit => 7
  | .gitPush _ _ => 8
  | .cdBack => 9

/-- A sample tree produced by `vuepress build`. -/
def tOk : Tree := [("index.html", "hello")]

/-- A sample prior commit on the remote `docs` branch. -/
def c0 : Commit :=
  { tree := [("old.html", "x")], authorName := "A", authorEmail := "a@b",
    message := "m", time := 0 }

/-- A sample initial state: stale build directory, a prior remote commit,
empty user-level git configuration. -/
def s0 : State :=
  { build := some [("stale.html", "y")], remoteDocs := [c0],
    globalConfig := { userName := none, userEmail := none } }

/-- Environment: build succeeds, network up, `git init` creates `main`. -/
def envOk : Env := { buildResult := some tOk, pushOk := true, initBranch := "main", time := 1 }

/-- Like `envOk`, one time unit later. -/
def envOkLater : Env := { buildResult := some tOk, pushOk := true, initBranch := "main", time := 2 }

/-- Environment where `vuepress build` fails. -/
def envBuildFail : Env := { buildResult := none, pushOk := true, initBranch := "main", time := 1 }

/-- Environment where the network (hence the push) fails. -/
def envNetFail : Env := { buildResult := some tOk, pushOk := false, initBranch := "main", time := 1 }

/-- Environment where `git init` creates `master` instead of `main`. -/
def envMaster : Env := { buildResult := some tOk, pushOk := true, initBranch := "master", time := 1 }

/-- C1: on any run of src/deploy_docs.sh in which some step fails, the run
exits non-zero, the executed commands are a strict prefix of the full command
sequence (the script aborts at the failing step and no later command runs),
and the remote branch's previously published history is unchanged. -/
theorem deploy_fail_fast (env : Env) (s : State)
    (h : (deploy_docs env s).1 ≠ 0) :
    (deploy_docs env s).2.1.remoteDocs = s.remoteDocs ∧
    (deploy_docs env s).2.2 <+: successTrace ∧
    (deploy_docs env s).2.2 ≠ successTrace := by
  rcases deploy_docs_spec env s with ⟨hb, he⟩ | ⟨t, hb, hp, he⟩ | ⟨t, hb, hp1, hp2, he⟩
  · rw [he]
    refine ⟨rfl, ⟨successTrace.drop 2, rfl⟩, ?_⟩
    show [Step.rmBuild, Step.vuepressBuild] ≠ successTrace
    decide
  · rw [he]
    refine ⟨rfl, ⟨[Step.cdBack], rfl⟩, ?_⟩
    show successTrace.dropLast ≠ successTrace
    decide
  · rw [he] at h
    simp at h

/-- Witness for C1: a run with the network down fails and leaves the remote
branch untouched. -/
theorem deploy_fail_fast_w :
    (deploy_docs envNetFail s0).1 ≠ 0 ∧
    ((deploy_docs envNetFail s0).2.1.remoteDocs = s0.remoteDocs ∧
     (deploy_docs envNetFail s0).2.2 <+: successTrace ∧
     (deploy_docs envNetFail s0).2.2 ≠ successTrace) :=
  ⟨by decide, deploy_fail_fast envNetFail s0 (by decide)⟩

/-- C2: when the Builder (`vuepress build`) fails, the run exits non-zero,
the only commands that executed are `rm -rf build` and the build itself — no
Publisher step (cd, marker file, git init/add/config/commit/push) ran — and
the remote branch is unchanged. -/
theorem builder_gates_publisher (env : Env) (s : State)
    (h : env.buildResult = none) :
    (deploy_docs env s).1 ≠ 0 ∧
    (deploy_docs env s).2.2 = [Step.rmBuild, Step.vuepressBuild] ∧
    (deploy_docs env s).2.1.remoteDocs = s.remoteDocs := by
  rcases deploy_docs_spec env s with ⟨hb, he⟩ | ⟨t, hb, hp, he⟩ | ⟨t, hb, hp1, hp2, he⟩
  · rw [he]
    exact ⟨by simp, rfl, rfl⟩
  · rw [h] at hb
    exact absurd hb (by simp)
  · rw [h] at hb
    exact absurd hb (by simp)

/-- Witness for C2: a run whose build fails performs no publish. -/
theorem builder_gates_publisher_w :
    envBuildFail.buildResult = none ∧
    ((deploy_docs envBuildFail s0).1 ≠ 0 ∧
     (deploy_docs envBuildFail s0).2.2 = [Step.rmBuild, Step.vuepressBuild] ∧
     (deploy_docs envBuildFail s0).2.1.remoteDocs = s0.remoteDocs) :=
  ⟨rfl, builder_gates_publisher envBuildFail s0 rfl⟩

/-- C3: a successful run leaves on the remote `docs` branch exactly one
commit, whose tree is the entire build output (plus the marker file), with no
parent history — whatever history was there before is gone — and the push in
the trace targets the hardcoded remote URL and refspec. -/
theorem publish_single_snapshot (env : Env) (s : State) (t : Tree)
    (hb : env.buildResult = some t)
    (h0 : (deploy_docs env s).1 = 0) :
    (deploy_docs env s).2.1.remoteDocs =
      [{ tree := touchFile t ".nojekyll", authorName := "Darwin S.",
         authorEmail := "darwin@yelp.com", message := "deploy", time := env.time }] ∧
    Step.gitPush "https://github.com/Yelp/graphql-guidelines.git" "main:docs"
      ∈ (deploy_docs env s).2.2 := by
  rcases deploy_docs_success_shape env s h0 with ⟨t2, hb2, he⟩
  have ht2 : t2 = t := by
    rw [hb] at hb2
    exact (Option.some.inj hb2).symm
  rw [ht2] at he
  rw [he]
  refine ⟨rfl, ?_⟩
  show Step.gitPush "https://github.com/Yelp/graphql-guidelines.git" "main:docs" ∈ successTrace
  decide

/-- Witness for C3: a successful concrete run replaces the remote history
with the single snapshot of this run's output. -/
theorem publish_single_snapshot_w :
    envOk.buildResult = some tOk ∧ (deploy_docs envOk s0).1 = 0 ∧
    ((deploy_docs envOk s0).2.1.remoteDocs =
      [{ tree := touchFile tOk ".nojekyll", authorName := "Darwin S.",
         authorEmail := "darwin@yelp.com", message := "deploy", time := envOk.time }] ∧
     Step.gitPush "https://github.com/Yelp/graphql-guidelines.git" "main:docs"
       ∈ (deploy_docs envOk s0).2.2) :=
  ⟨rfl, by decide, publish_single_snapshot envOk s0 tOk rfl (by decide)⟩

/-- C4: the build directory is cleared (`rm -rf build`) before the Builder
runs, and after a successful run it holds exactly this run's build output plus
the marker file — every file in it came from this run, none from a previous
build. -/
theorem clean_slate (env : Env) (s : State) (t : Tree)
    (hb : env.buildResult = some t)
    (h0 : (deploy_docs env s).1 = 0) :
    (deploy_docs env s).2.1.build = some (touchFile t ".nojekyll") ∧
    (∀ f ∈ touchFile t ".nojekyll", f ∈ t ∨ f = (".nojekyll", "")) ∧
    (deploy_docs env s).2.2.take 2 = [Step.rmBuild, Step.vuepressBuild] := by
  rcases deploy_docs_success_shape env s h0 with ⟨t2, hb2, he⟩
  have ht2 : t2 = t := by
    rw [hb] at hb2
    exact (Option.some.inj hb2).symm
  rw [ht2] at he
  rw [he]
  refine ⟨rfl, fun f hf => mem_touchFile t ".nojekyll" f hf, ?_⟩
  show successTrace.take 2 = [Step.rmBuild, Step.vuepressBuild]
  decide

/-- Witness for C4: a concrete run starting from a stale build directory ends
with only this run's files in it. -/
theorem clean_slate_w :
    envOk.buildResult = some tOk ∧ (deploy_docs envOk s0).1 = 0 ∧
    ((deploy_docs envOk s0).2.1.build = some (touchFile tOk ".nojekyll") ∧
     (∀ f ∈ touchFile tOk ".nojekyll", f ∈ tOk ∨ f = (".nojekyll", "")) ∧
     (deploy_docs envOk s0).2.2.take 2 = [Step.rmBuild, Step.vuepressBuild]) :=
  ⟨rfl, by decide, clean_slate envOk s0 tOk rfl (by decide)⟩

/-- C5: on a successful run the marker file `.nojekyll` is created (after
entering the build directory, before `git add -A` stages the tree), so a file
named `.nojekyll` is present in the root of the published snapshot. -/
theorem marker_published (env : Env) (s : State)
    (h0 : (deploy_docs env s).1 = 0) :
    (∃ c, (deploy_docs env s).2.1.remoteDocs = [c] ∧ ∃ v, (".nojekyll", v) ∈ c.tree) ∧
    (deploy_docs env s).2.2 = successTrace ∧
    successTrace.indexOf Step.touchNojekyll < successTrace.indexOf Step.gitAdd := by
  rcases deploy_docs_success_shape env s h0 with ⟨t, hb, he⟩
  rw [he]
  exact ⟨⟨snapshotOf t env.time, rfl, touchFile_has t ".nojekyll"⟩, rfl, by decide⟩

/-- Witness for C5: the marker file is in the published snapshot of a
concrete successful run. -/
theorem marker_published_w :
    (deploy_docs envOk s0).1 = 0 ∧
    ((∃ c, (deploy_docs envOk s0).2.1.remoteDocs = [c] ∧ ∃ v, (".nojekyll", v) ∈ c.tree) ∧
     (deploy_docs envOk s0).2.2 = successTrace ∧
     successTrace.indexOf Step.touchNojekyll < successTrace.indexOf Step.gitAdd) :=
  ⟨by decide, marker_published envOk s0 (by decide)⟩

/-- C6: two successive successful runs over identical build output (at
different commit times, as distinct runs have) publish two distinct commits
whose trees are byte-identical: idempotent in content, not in history. -/
theorem rerun_identical_content (env1 env2 : Env) (s : State) (t : Tree)
    (h1 : env1.buildResult = some t) (h2 : env2.buildResult = some t)
    (ht : env1.time ≠ env2.time)
    (hc1 : (deploy_docs env1 s).1 = 0)
    (hc2 : (deploy_docs env2 (deploy_docs env1 s).2.1).1 = 0) :
    ∃ c1 c2 : Commit,
      (deploy_docs env1 s).2.1.remoteDocs = [c1] ∧
      (deploy_docs env2 (deploy_docs env1 s).2.1).2.1.remoteDocs = [c2] ∧
      c1 ≠ c2 ∧ c1.tree = c2.tree := by
  rcases deploy_docs_success_shape env1 s hc1 with ⟨t1, hb1, he1⟩
  have ht1 : t1 = t := by
    rw [h1] at hb1
    exact (Option.some.inj hb1).symm
  rw [ht1] at he1
  rcases deploy_docs_success_shape env2 (deploy_docs env1 s).2.1 hc2 with ⟨t2, hb2, he2⟩
  have ht2 : t2 = t := by
    rw [h2] at hb2
    exact (Option.some.inj hb2).symm
  rw [ht2] at he2
  refine ⟨snapshotOf t env1.time, snapshotOf t env2.time, ?_, ?_, ?_, rfl⟩
  · rw [he1]
  · rw [he2]
  · intro hc
    exact ht (congrArg Commit.time hc)

/-- Witness for C6: two concrete back-to-back runs with the same build output
yield distinct snapshots with equal trees. -/
theorem rerun_identical_content_w :
    envOk.buildResult = some tOk ∧ envOkLater.buildResult = some tOk ∧
    envOk.time ≠ envOkLater.time ∧
    (deploy_docs envOk s0).1 = 0 ∧
    (deploy_docs envOkLater (deploy_docs envOk s0).2.1).1 = 0 ∧
    (∃ c1 c2 : Commit,
      (deploy_docs envOk s0).2.1.remoteDocs = [c1] ∧
      (deploy_docs envOkLater (deploy_docs envOk s0).2.1).2.1.remoteDocs = [c2] ∧
      c1 ≠ c2 ∧ c1.tree = c2.tree) :=
  ⟨rfl, rfl, by decide, by decide, by decide,
   rerun_identical_content envOk envOkLater s0 tOk rfl rfl (by decide) (by decide) (by decide)⟩

/-- C7 counterexample: the claim is false for the deploy-script copy embedded
in src/Makefile — a run that reaches the config steps mutates the user-level
(`git config --global`) configuration, persisting state beyond the remote
branch's content. -/
theorem makefile_mutates_user_config :
    (makefile_deploy envMaster s0).2.1.globalConfig ≠ s0.globalConfig := by decide

/-- C7 (amended): a run of src/deploy_docs.sh itself persists nothing beyond
the remote branch and the disposable build directory — in particular the
user-level git configuration is never mutated (its `git config` calls are
repo-local, inside the throwaway repository); only the copy embedded in
src/Makefile mutates the global configuration. -/
theorem deploy_docs_frame (env : Env) (s : State) :
    (deploy_docs env s).2.1.globalConfig = s.globalConfig := by
  rcases deploy_docs_spec env s with ⟨_, he⟩ | ⟨t, _, _, he⟩ | ⟨t, _, _, _, he⟩ <;>
    rw [he]

/-- C8: the push refspec `main:docs` requires the local branch `git init`
created to be named `main`; with any other branch name the run exits non-zero
and the remote branch is not updated, and every push the script ever issues
carries the hardcoded URL and refspec. -/
theorem push_requires_main (env : Env) (s : State)
    (hbr : env.initBranch ≠ "main") :
    (deploy_docs env s).1 ≠ 0 ∧
    (deploy_docs env s).2.1.remoteDocs = s.remoteDocs ∧
    (∀ u r, Step.gitPush u r ∈ (deploy_docs env s).2.2 →
      u = "https://github.com/Yelp/graphql-guidelines.git" ∧ r = "main:docs") := by
  rcases deploy_docs_spec env s with ⟨hb, he⟩ | ⟨t, hp, hp2, he⟩ | ⟨t, hb, hp1, hp2, he⟩
  · rw [he]
    refine ⟨by simp, rfl, ?_⟩
    intro u r hm
    simp at hm
  · rw [he]
    refine ⟨by simp, rfl, ?_⟩
    intro u r hm
    have hm2 : Step.gitPush u r ∈ successTrace.dropLast := hm
    simp [successTrace] at hm2
    exact hm2
  · exact absurd hp2 hbr

/-- Witness for C8: with `git init` creating `master`, the concrete run fails
and the remote keeps its prior history. -/
theorem push_requires_main_w :
    envMaster.initBranch ≠ "main" ∧
    ((deploy_docs envMaster s0).1 ≠ 0 ∧
     (deploy_docs envMaster s0).2.1.remoteDocs = s0.remoteDocs ∧
     (∀ u r, Step.gitPush u r ∈ (deploy_docs envMaster s0).2.2 →
       u = "https://github.com/Yelp/graphql-guidelines.git" ∧ r = "main:docs")) :=
  ⟨by decide, push_requires_main envMaster s0 (by decide)⟩

/-- C9: every snapshot src/deploy_docs.sh publishes is authored as
"Darwin S." \<darwin@yelp.com\>, whatever the initial user-level git
configuration was, and the identity is set by repo-local `git config` steps
executed in the fresh repository before the commit. -/
theorem commit_identity_fixed (env : Env) (s : State)
    (h0 : (deploy_docs env s).1 = 0) :
    (∃ c, (deploy_docs env s).2.1.remoteDocs = [c] ∧
      c.authorName = "Darwin S." ∧ c.authorEmail = "darwin@yelp.com") ∧
    Step.gitConfig false "user.email" "darwin@yelp.com" ∈ (deploy_docs env s).2.2 ∧
    Step.gitConfig false "user.name" "Darwin S." ∈ (deploy_docs env s).2.2 := by
  rcases deploy_docs_success_shape env s h0 with ⟨t, hb, he⟩
  rw [he]
  refine ⟨⟨snapshotOf t env.time, rfl, rfl, rfl⟩, ?_, ?_⟩
  · show Step.gitConfig false "user.email" "darwin@yelp.com" ∈ successTrace
    decide
  · show Step.gitConfig false "user.name" "Darwin S." ∈ successTrace
    decide

/-- Witness for C9: the concrete successful run commits as Darwin S. even
though the initial global configuration is empty. -/
theorem commit_identity_fixed_w :
    (deploy_docs envOk s0).1 = 0 ∧
    ((∃ c, (deploy_docs envOk s0).2.1.remoteDocs = [c] ∧
       c.authorName = "Darwin S." ∧ c.authorEmail = "darwin@yelp.com") ∧
     Step.gitConfig false "user.email" "darwin@yelp.com" ∈ (deploy_docs envOk s0).2.2 ∧
     Step.gitConfig false "user.name" "Darwin S." ∈ (deploy_docs envOk s0).2.2) :=
  ⟨by decide, commit_identity_fixed envOk s0 (by decide)⟩

/-- C10 counterexample: the two copies are not observationally equivalent.
From the same initial state and environment (`git init` creates `main`,
network up, same build output), src/deploy_docs.sh succeeds while the
Makefile copy fails (its refspec needs `master`), their traces differ, and
the Makefile copy mutates the user-level git configuration while
src/deploy_docs.sh leaves it alone. -/
theorem scripts_observably_differ :
    (deploy_docs envOk s0).1 = 0 ∧
    (makefile_deploy envOk s0).1 ≠ 0 ∧
    (makefile_deploy envOk s0).2.1.globalConfig ≠ (deploy_docs envOk s0).2.1.globalConfig ∧
    (deploy_docs envOk s0).2.2 ≠ (makefile_deploy envOk s0).2.2 := by decide

/-- C10 (amended): the two copies run the same sequence of command kinds and,
when each is run with the local branch name its refspec requires, publish the
same single-commit snapshot to the same remote `docs` branch; but they are
not observationally equivalent — they require different local branch names
(`main` vs `master`), push to different remote URLs (HTTPS vs SSH), and the
Makefile copy additionally overwrites the user-level git identity
configuration, which src/deploy_docs.sh leaves untouched. -/
theorem scripts_agree_on_snapshot (env1 env2 : Env) (s : State) (t : Tree)
    (hb1 : env1.buildResult = some t) (hb2 : env2.buildResult = some t)
    (hok1 : env1.pushOk = true) (hok2 : env2.pushOk = true)
    (hbr1 : env1.initBranch = "main") (hbr2 : env2.initBranch = "master")
    (htime : env1.time = env2.time) :
    (deploy_docs env1 s).1 = 0 ∧ (makefile_deploy env2 s).1 = 0 ∧
    (makefile_deploy env2 s).2.1.remoteDocs = (deploy_docs env1 s).2.1.remoteDocs ∧
    (deploy_docs env1 s).2.2.map stepKind = (makefile_deploy env2 s).2.2.map stepKind ∧
    (deploy_docs env1 s).2.1.globalConfig = s.globalConfig ∧
    (makefile_deploy env2 s).2.1.globalConfig = darwinConfig := by
  have hd : deploy_docs env1 s =
      (0, { s with
            build := some (touchFile t ".nojekyll"),
            remoteDocs := [snapshotOf t env1.time] }, successTrace) := by
    rcases deploy_docs_spec env1 s with ⟨hb, he⟩ | ⟨t2, hb, hp, he⟩ | ⟨t2, hb, hp1, hp2, he⟩
    · rw [hb1] at hb
      exact absurd hb (by simp)
    · exact absurd ⟨hok1, hbr1⟩ hp
    · have ht2 : t2 = t := by
        rw [hb1] at hb
        exact (Option.some.inj hb).symm
      rw [ht2] at he
      exact he
  have hm := makefile_deploy_success env2 s t hb2 hok2 hbr2
  rw [hd, hm]
  refine ⟨rfl, rfl, ?_, ?_, rfl, rfl⟩
  · show [snapshotOf t env2.time] = [snapshotOf t env1.time]
    rw [htime]
  · show successTrace.map stepKind = mkSuccessTrace.map stepKind
    decide

/-- Witness for C10 (amended): concrete runs of both copies, each with its
required branch name, publish the same snapshot. -/
theorem scripts_agree_on_snapshot_w :
    envOk.buildResult = some tOk ∧ envMaster.buildResult = some tOk ∧
    envOk.pushOk = true ∧ envMaster.pushOk = true ∧
    envOk.initBranch = "main" ∧ envMaster.initBranch = "master" ∧
    envOk.time = envMaster.time ∧
    ((deploy_docs envOk s0).1 = 0 ∧ (makefile_deploy envMaster s0).1 = 0 ∧
     (makefile_deploy envMaster s0).2.1.remoteDocs = (deploy_docs envOk s0).2.1.remoteDocs ∧
     (deploy_docs envOk s0).2.2.map stepKind = (makefile_deploy envMaster s0).2.2.map stepKind ∧
     (deploy_docs envOk s0).2.1.globalConfig = s0.globalConfig ∧
     (makefile_deploy envMaster s0).2.1.globalConfig = darwinConfig) :=
  ⟨rfl, rfl, rfl, rfl, rfl, rfl, rfl,
   scripts_agree_on_snapshot envOk envMaster s0 tOk rfl rfl rfl rfl rfl rfl rfl⟩

end DeployDocs
